/-
Verification of `download_nifty50.py`: a batch exporter that resolves the
NIFTY-50 ticker list (Wikipedia table with a hardcoded fallback), downloads
daily price bars per ticker, enriches them with NSE delivery/open-interest
data via a left join on date, writes one CSV per ticker, and reports a
success/failure summary.

The embedding below mirrors the Python source:
  * Network / parse effects are abstracted as `Except String` inputs: the
    code's `try`/`except` branches become `match` on these values.
  * pandas DataFrames become lists of records; `pd.NA` becomes the
    `CellValue.na` constructor, `astype("Int64")` / `astype("Float64")`
    become the `ival` / `fval` constructors.
  * `merge(on="Date", how="left")` is modelled row by row: each price row
    yields one output row per matching delivery row, or a single row with
    NA markers when there is no match.
  * `main`'s per-ticker loop becomes a fold over the ticker list with an
    environment `String → TickerResult` supplying each ticker's
    `download_ticker_data` outcome (rows, or a raised exception).
-/
import Mathlib

namespace SMC

/-- A value in one of the three delivery columns of a merged record:
an integer (pandas nullable `Int64`), a fraction (`Float64`), or the
explicit missing marker `pd.NA`. -/
inductive CellValue where
  | ival (n : Int)
  | fval (q : Rat)
  | na
deriving DecidableEq, Repr

/-- One daily price bar as returned by `yf.download` after `reset_index`:
columns Date, Open, High, Low, Close, Adj Close, Volume. Dates are day
indices. -/
structure PriceRow where
  date : Nat
  «open» : Rat
  high : Rat
  low : Rat
  close : Rat
  adjClose : Rat
  volume : Rat
deriving DecidableEq, Repr

/-- One row of `fetch_nse_delivery_data`'s result frame: columns Date,
Deliverable Volume, Deliverable %, OI (renamed from CH_DELIVERY_QTY,
CH_DELIVERY_PERC, CH_OPEN_INT). -/
structure DeliveryRow where
  date : Nat
  deliverableVolume : Int
  deliverablePerc : Rat
  oi : Int
deriving DecidableEq, Repr

/-- One output row of `download_ticker_data`: a price row extended with the
three delivery columns, each possibly `na`. -/
structure MergedRecord where
  price : PriceRow
  deliverableVolume : CellValue
  deliverablePerc : CellValue
  oi : CellValue
deriving DecidableEq, Repr

/-- `pandas.Series.unique`: drop duplicates keeping the first occurrence,
preserving order. Used to model `table["Symbol"].…​.unique()`. -/
def uniqueFirst {α : Type} [DecidableEq α] : List α → List α
  | [] => []
  | x :: xs => x :: uniqueFirst (xs.filter (fun y => y ≠ x))
termination_by l => l.length
decreasing_by
  simp only [List.length_cons]
  exact Nat.lt_succ_of_le (List.length_filter_le _ _)

/-- The embedded fallback ticker list (`hardcoded` in
`fetch_nifty50_tickers`), verbatim from the source. -/
def hardcoded : List String :=
  ["ADANIENT.NS", "ADANIPORTS.NS", "APOLLOHOSP.NS", "ASIANPAINT.NS",
   "AXISBANK.NS", "BAJAJ-AUTO.NS", "BAJFINANCE.NS", "BAJAJFINSV.NS",
   "BPCL.NS", "BHARTIARTL.NS", "BRITANNIA.NS", "CIPLA.NS", "COALINDIA.NS",
   "DIVISLAB.NS", "DRREDDY.NS", "EICHERMOT.NS", "GRASIM.NS", "HCLTECH.NS",
   "HDFCBANK.NS", "HDFCLIFE.NS", "HEROMOTOCO.NS", "HINDALCO.NS",
   "HINDUNILVR.NS", "ICICIBANK.NS", "ITC.NS", "INDUSINDBK.NS", "INFY.NS",
   "JSWSTEEL.NS", "KOTAKBANK.NS", "LTIM.NS", "LT.NS", "M&M.NS", "MARUTI.NS",
   "NESTLEIND.NS", "NTPC.NS", "ONGC.NS", "POWERGRID.NS", "RELIANCE.NS",
   "SBIN.NS", "SBILIFE.NS", "SUNPHARMA.NS", "TCS.NS", "TATACONSUM.NS",
   "TATAMOTORS.NS", "TATASTEEL.NS", "TECHM.NS", "TITAN.NS", "ULTRACEMCO.NS",
   "UPL.NS", "WIPRO.NS"]

/-- `fetch_nifty50_tickers`. The primary path (HTTP GET of the Wikipedia
page, `read_html`, locating the table with a "Symbol" column) is abstracted
as `primary`: `Except.error` is any exception before the Symbol column is
in hand, `Except.ok raw` the raw Symbol column with possible NaNs
(`Option String`). The body then mirrors the source: `dropna` →
`filterMap id`, `str.strip` → `String.trim`, `.unique()` → `uniqueFirst`,
suffix ".NS"; an empty ticker list raises, and every exception falls to the
`hardcoded` list with source label "hardcoded". -/
def fetch_nifty50_tickers (primary : Except String (List (Option String))) :
    List String × String :=
  match primary with
  | .error _ => (hardcoded, "hardcoded")
  | .ok raw =>
    let symbols := uniqueFirst ((raw.filterMap id).map String.trim)
    let tickers := symbols.map (fun s => s ++ ".NS")
    if tickers.isEmpty then (hardcoded, "hardcoded") else (tickers, "wikipedia")

/-- `download_ticker_data`. The `yf.download` result is `priceData`
(empty means "provider has no data": the function returns empty at once).
The `try: fetch_nse_delivery_data … except: nse_data = pd.DataFrame()`
block is `nseFetch : Except String (List DeliveryRow)` matched to a row
list, errors becoming the empty list. Empty delivery rows set all three
delivery columns to `na`; otherwise a pandas left merge on Date attaches
the matching delivery fields (one output row per match; `na` when no
match), the `astype` casts being the `ival`/`fval` constructors. The final
column selection is structural: `MergedRecord` holds exactly the ten
selected columns. -/
def download_ticker_data (priceData : List PriceRow)
    (nseFetch : Except String (List DeliveryRow)) : List MergedRecord :=
  if priceData.isEmpty then []
  else
    let nse_data := match nseFetch with
      | .ok rows => rows
      | .error _ => []
    if nse_data.isEmpty then
      priceData.map (fun r => ⟨r, .na, .na, .na⟩)
    else
      priceData.flatMap (fun r =>
        match nse_data.filter (fun d => d.date == r.date) with
        | [] => [⟨r, .na, .na, .na⟩]
        | ms => ms.map (fun d =>
            ⟨r, .ival d.deliverableVolume, .fval d.deliverablePerc, .ival d.oi⟩))

/-- The fixed column selection at the end of `download_ticker_data`, which
is also the header `to_csv` writes. -/
def selectedColumns : List String :=
  ["Date", "Open", "High", "Low", "Close", "Adj Close", "Volume",
   "Deliverable Volume", "Deliverable %", "OI"]

/-- `ticker.replace('.', '_')`: the pattern is a single character, so this
is a character-wise map. -/
def replaceDots (s : String) : String :=
  String.mk (s.data.map (fun c => if c = '.' then '_' else c))

/-- `OUTPUT_DIR` constant. -/
def OUTPUT_DIR : String := "nifty50_csv"

/-- `os.path.join(OUTPUT_DIR, f"{ticker.replace('.', '_')}.csv")`. -/
def outputPath (ticker : String) : String :=
  OUTPUT_DIR ++ "/" ++ replaceDots ticker ++ ".csv"

/-- A file written by `data.to_csv(output_path, index=False)`: its path,
its header row, and its data rows. -/
structure CsvFile where
  path : String
  header : List String
  rows : List MergedRecord
deriving DecidableEq, Repr

/-- Outcome of the `download_ticker_data` call for one ticker inside
`main`'s `try`: either it returned rows, or an exception escaped. -/
inductive TickerResult where
  | data (rows : List MergedRecord)
  | exn (msg : String)

/-- The mutable state of `main`'s loop: the `success` counter, the
`failed` list, and the files written so far. -/
structure RunState where
  success : Nat
  failed : List String
  files : List CsvFile
deriving DecidableEq, Repr

/-- One iteration of `main`'s per-ticker loop: empty data appends the
ticker to `failed`; non-empty data writes the CSV and increments
`success`; an exception anywhere in the `try` appends to `failed`. -/
def processTicker (env : String → TickerResult) (st : RunState)
    (ticker : String) : RunState :=
  match env ticker with
  | .exn _ => { st with failed := st.failed ++ [ticker] }
  | .data rows =>
    if rows.isEmpty then
      { st with failed := st.failed ++ [ticker] }
    else
      { st with success := st.success + 1,
                files := st.files ++ [⟨outputPath ticker, selectedColumns, rows⟩] }

/-- `main`'s `for ticker in tickers` loop. -/
def runLoop (env : String → TickerResult) : RunState → List String → RunState
  | st, [] => st
  | st, t :: ts => runLoop env (processTicker env st t) ts

/-- `main`'s initial state: `success = 0`, `failed = []`, no files. -/
def initialState : RunState := ⟨0, [], []⟩

/-- `main`: resolve the ticker list, then run the loop from the initial
state. `env` supplies each ticker's per-ticker outcome. -/
def main (primary : Except String (List (Option String)))
    (env : String → TickerResult) : RunState :=
  runLoop env initialState (fetch_nifty50_tickers primary).1

/-! ## Helper lemmas -/

theorem mem_uniqueFirst {α : Type} [DecidableEq α] {a : α} :
    ∀ {l : List α}, a ∈ uniqueFirst l → a ∈ l := by
  intro l
  induction l using uniqueFirst.induct with
  | case1 => simp [uniqueFirst]
  | case2 x xs ih =>
    intro h
    rw [uniqueFirst] at h
    rcases List.mem_cons.mp h with h | h
    · exact h ▸ List.mem_cons_self _ _
    · exact List.mem_cons_of_mem _ (List.mem_of_mem_filter (ih h))

theorem nodup_uniqueFirst {α : Type} [DecidableEq α] :
    ∀ (l : List α), (uniqueFirst l).Nodup := by
  intro l
  induction l using uniqueFirst.induct with
  | case1 => simp [uniqueFirst]
  | case2 x xs ih =>
    rw [uniqueFirst]
    refine List.nodup_cons.mpr ⟨fun hx => ?_, ih⟩
    have := List.of_mem_filter (mem_uniqueFirst hx)
    simp at this

theorem append_NS_injective : Function.Injective (fun s : String => s ++ ".NS") := by
  intro a b h
  have hd : a.data ++ ".NS".data = b.data ++ ".NS".data := by
    have := congrArg String.data h
    simpa [String.data_append] using this
  exact String.ext (List.append_cancel_right hd)

theorem hardcoded_nodup : hardcoded.Nodup := by decide

theorem filter_eq_find_toList {l : List DeliveryRow} {x : Nat}
    (h : (l.map DeliveryRow.date).Nodup) :
    l.filter (fun d => d.date == x) = (l.find? (fun d => d.date == x)).toList := by
  induction l with
  | nil => simp
  | cons d l ih =>
    rw [List.map_cons, List.nodup_cons] at h
    by_cases hdx : d.date = x
    · rw [List.filter_cons_of_pos (by simpa using hdx),
        List.find?_cons_of_pos _ (by simpa using hdx)]
      have hnil : l.filter (fun d' => d'.date == x) = [] := by
        rw [List.filter_eq_nil_iff]
        intro a ha hax
        exact h.1 (hdx ▸ (by simpa using hax : a.date = x) ▸ List.mem_map_of_mem _ ha)
      simp [hnil]
    · rw [List.filter_cons_of_neg (by simpa using hdx),
        List.find?_cons_of_neg _ (by simpa using hdx)]
      exact ih h.2

theorem mergeRow_eq (delivery : List DeliveryRow) (r : PriceRow)
    (hd : (delivery.map DeliveryRow.date).Nodup) :
    (match delivery.filter (fun d => d.date == r.date) with
      | [] => [(⟨r, .na, .na, .na⟩ : MergedRecord)]
      | ms => ms.map (fun d =>
          ⟨r, .ival d.deliverableVolume, .fval d.deliverablePerc, .ival d.oi⟩)) =
    [(match delivery.find? (fun d => d.date == r.date) with
      | some d =>
          (⟨r, .ival d.deliverableVolume, .fval d.deliverablePerc,
            .ival d.oi⟩ : MergedRecord)
      | none => ⟨r, .na, .na, .na⟩)] := by
  rw [filter_eq_find_toList hd]
  cases delivery.find? (fun d => d.date == r.date) <;> simp

/-! ## Claims -/

/-- C1: for every run of `fetch_nifty50_tickers` — any primary-path
outcome, success or failure — the returned ticker list is non-empty and
has no duplicate identifiers. -/
theorem fetch_nifty50_tickers_nonempty_nodup
    (primary : Except String (List (Option String))) :
    (fetch_nifty50_tickers primary).1 ≠ [] ∧
      (fetch_nifty50_tickers primary).1.Nodup := by
  match primary with
  | .error e => exact ⟨by simp [fetch_nifty50_tickers, hardcoded], hardcoded_nodup⟩
  | .ok raw =>
    simp only [fetch_nifty50_tickers]
    split
    · exact ⟨by simp [hardcoded], hardcoded_nodup⟩
    · next h =>
      refine ⟨fun hnil => ?_, ?_⟩
      · simp only [] at hnil; rw [hnil] at h; simp at h
      · exact List.Nodup.map append_NS_injective (nodup_uniqueFirst _)

/-- C6: any error on the primary path — and equally a primary success whose
parsed symbol column yields no tickers — makes `fetch_nifty50_tickers`
return exactly the embedded fallback list with the source label
"hardcoded"; the fallback branch is a pure constant and cannot fail. -/
theorem fetch_nifty50_tickers_fallback (e : String)
    (raw : List (Option String))
    (hraw : (raw.filterMap id) = []) :
    fetch_nifty50_tickers (Except.error e) = (hardcoded, "hardcoded") ∧
      fetch_nifty50_tickers (Except.ok raw) = (hardcoded, "hardcoded") := by
  refine ⟨rfl, ?_⟩
  simp [fetch_nifty50_tickers, hraw, uniqueFirst]

/-- Witness for C6 at a concrete failing input: a network error, and a
parse result whose Symbol column is all NaN. -/
theorem fetch_nifty50_tickers_fallback_witness :
    fetch_nifty50_tickers (Except.error "connection timed out") =
        (hardcoded, "hardcoded") ∧
      fetch_nifty50_tickers (Except.ok [none, none]) =
        (hardcoded, "hardcoded") :=
  fetch_nifty50_tickers_fallback "connection timed out" [none, none] rfl

/-- C2: `download_ticker_data` is a left, price-preserving join on date:
for any price rows and any delivery rows (with at most one delivery row
per date, as the provider returns one row per trading day), the output has
one record per price row, in order, carrying that price row unchanged; a
date with a matching delivery row `(V, P, O)` gets exactly
`(ival V, fval P, ival O)`, and a date with no match gets the `na` marker
(not zero) in all three delivery fields. -/
theorem download_ticker_data_left_join (price : List PriceRow)
    (delivery : List DeliveryRow)
    (hd : (delivery.map DeliveryRow.date).Nodup) :
    download_ticker_data price (Except.ok delivery) =
      price.map (fun r =>
        match delivery.find? (fun d => d.date == r.date) with
        | some d =>
            ⟨r, .ival d.deliverableVolume, .fval d.deliverablePerc, .ival d.oi⟩
        | none => ⟨r, .na, .na, .na⟩) := by
  rw [download_ticker_data]
  by_cases hp : price.isEmpty
  · rw [if_pos hp, List.isEmpty_iff.mp hp, List.map_nil]
  · rw [if_neg hp]
    simp only []
    by_cases hdel : delivery.isEmpty
    · rw [List.isEmpty_iff.mp hdel]
      simp
    · rw [if_neg hdel]
      clear hp
      induction price with
      | nil => rfl
      | cons r rs ih =>
        rw [List.flatMap_cons, mergeRow_eq delivery r hd, List.map_cons,
          List.singleton_append, ih]

/-- Witness for C2: two price dates, one matching delivery row. -/
theorem download_ticker_data_left_join_witness :
    download_ticker_data
        [⟨1, 10, 11, 9, 10, 10, 100⟩, ⟨2, 10, 11, 9, 10, 10, 100⟩]
        (Except.ok [⟨2, 77, 1/2, 5⟩]) =
      [⟨⟨1, 10, 11, 9, 10, 10, 100⟩, .na, .na, .na⟩,
       ⟨⟨2, 10, 11, 9, 10, 10, 100⟩, .ival 77, .fval (1/2), .ival 5⟩] := by
  rw [download_ticker_data_left_join
    [⟨1, 10, 11, 9, 10, 10, 100⟩, ⟨2, 10, 11, 9, 10, 10, 100⟩]
    [⟨2, 77, 1/2, 5⟩] (by decide)]
  rfl

/-- C3: merging a (non-empty) price-row set with an empty delivery-row set
yields exactly the price rows extended with the `na` marker — distinct
from the zero values `ival 0` / `fval 0` — in all three delivery fields,
and projecting the price columns back out reproduces the input exactly. -/
theorem download_ticker_data_empty_delivery (price : List PriceRow)
    (hp : price ≠ []) :
    download_ticker_data price (Except.ok []) =
        price.map (fun r => ⟨r, .na, .na, .na⟩) ∧
      (download_ticker_data price (Except.ok [])).map MergedRecord.price =
        price ∧
      ∀ m ∈ download_ticker_data price (Except.ok []),
        m.deliverableVolume = .na ∧ m.deliverablePerc = .na ∧ m.oi = .na ∧
          m.deliverableVolume ≠ .ival 0 ∧ m.deliverablePerc ≠ .fval 0 ∧
          m.oi ≠ .ival 0 := by
  have heq : download_ticker_data price (Except.ok []) =
      price.map (fun r => ⟨r, .na, .na, .na⟩) := by
    rw [download_ticker_data]
    by_cases hpe : price.isEmpty
    · exact absurd (List.isEmpty_iff.mp hpe) hp
    · rw [if_neg hpe]
      rfl
  refine ⟨heq, ?_, ?_⟩
  · rw [heq, List.map_map]
    exact List.map_id'' (fun _ => rfl) _
  · intro m hm
    rw [heq] at hm
    obtain ⟨r, _, rfl⟩ := List.mem_map.mp hm
    refine ⟨rfl, rfl, rfl, ?_, ?_, ?_⟩ <;> intro h <;> cases h

/-- Witness for C3 at a one-row price set. -/
theorem download_ticker_data_empty_delivery_witness :
    download_ticker_data [⟨3, 5, 6, 4, 5, 5, 50⟩] (Except.ok []) =
        [⟨⟨3, 5, 6, 4, 5, 5, 50⟩, .na, .na, .na⟩] ∧
      (download_ticker_data [⟨3, 5, 6, 4, 5, 5, 50⟩]
          (Except.ok [])).map MergedRecord.price =
        [⟨3, 5, 6, 4, 5, 5, 50⟩] :=
  ⟨(download_ticker_data_empty_delivery [⟨3, 5, 6, 4, 5, 5, 50⟩]
      (by decide)).1,
   (download_ticker_data_empty_delivery [⟨3, 5, 6, 4, 5, 5, 50⟩]
      (by decide)).2.1⟩

/-- C9: in every record `download_ticker_data` produces — whatever the
price rows and whatever the delivery fetch returned (rows, no rows, or an
exception) — the deliverable-volume and open-interest fields are an
integer (`ival`) or the missing marker `na`, never a fraction, and the
deliverable-percentage field is a fraction (`fval`) or `na`, never a bare
integer. -/
theorem download_ticker_data_typing (price : List PriceRow)
    (nse : Except String (List DeliveryRow)) :
    ∀ m ∈ download_ticker_data price nse,
      ((∃ n, m.deliverableVolume = .ival n) ∨ m.deliverableVolume = .na) ∧
        ((∃ q, m.deliverablePerc = .fval q) ∨ m.deliverablePerc = .na) ∧
        ((∃ n, m.oi = .ival n) ∨ m.oi = .na) := by
  intro m hm
  rcases nse with msg | rows
  · rw [show download_ticker_data price (Except.error msg) =
        if price.isEmpty then []
        else price.map (fun r => (⟨r, .na, .na, .na⟩ : MergedRecord))
      from rfl] at hm
    split at hm
    · cases hm
    · obtain ⟨r, _, rfl⟩ := List.mem_map.mp hm
      exact ⟨Or.inr rfl, Or.inr rfl, Or.inr rfl⟩
  · rcases rows with _ | ⟨d, ds⟩
    · rw [show download_ticker_data price (Except.ok []) =
          if price.isEmpty then []
          else price.map (fun r => (⟨r, .na, .na, .na⟩ : MergedRecord))
        from rfl] at hm
      split at hm
      · cases hm
      · obtain ⟨r, _, rfl⟩ := List.mem_map.mp hm
        exact ⟨Or.inr rfl, Or.inr rfl, Or.inr rfl⟩
    · rw [show download_ticker_data price (Except.ok (d :: ds)) =
          if price.isEmpty then []
          else price.flatMap (fun r =>
            match (d :: ds).filter (fun e => e.date == r.date) with
            | [] => [(⟨r, .na, .na, .na⟩ : MergedRecord)]
            | ms => ms.map (fun e =>
                ⟨r, .ival e.deliverableVolume, .fval e.deliverablePerc,
                  .ival e.oi⟩))
        from rfl] at hm
      split at hm
      · cases hm
      · obtain ⟨r, _, hmem⟩ := List.mem_flatMap.mp hm
        revert hmem
        split
        · intro hmem
          rw [List.mem_singleton.mp hmem]
          exact ⟨Or.inr rfl, Or.inr rfl, Or.inr rfl⟩
        · intro hmem
          obtain ⟨e, _, rfl⟩ := List.mem_map.mp hmem
          exact ⟨Or.inl ⟨_, rfl⟩, Or.inl ⟨_, rfl⟩, Or.inl ⟨_, rfl⟩⟩

/-- Witness for C9: a record of the merged output of a matching join has
an integer deliverable volume, a fractional percentage, an integer OI. -/
theorem download_ticker_data_typing_witness :
    ((∃ n, (⟨⟨1, 2, 3, 1, 2, 2, 9⟩, .ival 4, .fval 45,
          .ival 6⟩ : MergedRecord).deliverableVolume = .ival n) ∨
        (⟨⟨1, 2, 3, 1, 2, 2, 9⟩, .ival 4, .fval 45,
          .ival 6⟩ : MergedRecord).deliverableVolume = .na) ∧
      ((∃ q, (⟨⟨1, 2, 3, 1, 2, 2, 9⟩, .ival 4, .fval 45,
          .ival 6⟩ : MergedRecord).deliverablePerc = .fval q) ∨
        (⟨⟨1, 2, 3, 1, 2, 2, 9⟩, .ival 4, .fval 45,
          .ival 6⟩ : MergedRecord).deliverablePerc = .na) ∧
      ((∃ n, (⟨⟨1, 2, 3, 1, 2, 2, 9⟩, .ival 4, .fval 45,
          .ival 6⟩ : MergedRecord).oi = .ival n) ∨
        (⟨⟨1, 2, 3, 1, 2, 2, 9⟩, .ival 4, .fval 45,
          .ival 6⟩ : MergedRecord).oi = .na) :=
  download_ticker_data_typing [⟨1, 2, 3, 1, 2, 2, 9⟩]
    (Except.ok [⟨1, 4, 45, 6⟩]) _ (by decide)

theorem processTicker_step (env : String → TickerResult) (st : RunState)
    (t : String) :
    ((processTicker env st t).success = st.success + 1 ∧
        (processTicker env st t).failed = st.failed) ∨
      ((processTicker env st t).success = st.success ∧
        (processTicker env st t).failed = st.failed ++ [t]) := by
  rw [processTicker.eq_def]
  split
  · exact Or.inr ⟨rfl, rfl⟩
  · split
    · exact Or.inr ⟨rfl, rfl⟩
    · exact Or.inl ⟨rfl, rfl⟩

theorem runLoop_counts (env : String → TickerResult) (st : RunState)
    (ts : List String) :
    (runLoop env st ts).success + (runLoop env st ts).failed.length =
      st.success + st.failed.length + ts.length := by
  induction ts generalizing st with
  | nil => rfl
  | cons t ts ih =>
    rw [runLoop, ih]
    rcases processTicker_step env st t with ⟨h1, h2⟩ | ⟨h1, h2⟩ <;>
      rw [h1, h2] <;> simp [List.length_append] <;> omega

theorem runLoop_files_spec (env : String → TickerResult) (st : RunState)
    (ts : List String) :
    ∀ f ∈ (runLoop env st ts).files,
      f ∈ st.files ∨
        ∃ t ∈ ts, f.path = outputPath t ∧ f.header = selectedColumns := by
  induction ts generalizing st with
  | nil => exact fun f hf => Or.inl hf
  | cons t ts ih =>
    intro f hf
    rw [runLoop] at hf
    rcases ih (processTicker env st t) f hf with hmem | ⟨t', ht', hp⟩
    · rw [processTicker.eq_def] at hmem
      revert hmem
      split
      · exact fun hmem => Or.inl hmem
      · split
        · exact fun hmem => Or.inl hmem
        · intro hmem
          rcases List.mem_append.mp hmem with hmem | hmem
          · exact Or.inl hmem
          · rw [List.mem_singleton.mp hmem]
            exact Or.inr ⟨t, List.mem_cons_self _ _, rfl, rfl⟩
    · exact Or.inr ⟨t', List.mem_cons_of_mem _ ht', hp⟩

/-- C4: a ticker whose price fetch yields an empty result is appended to
the failed list, gets no output file, leaves the success counter
unchanged, and the loop goes on with the remaining tickers from that
updated state. -/
theorem empty_fetch_marks_failed (env : String → TickerResult)
    (st : RunState) (t : String) (rest : List String)
    (h : env t = .data []) :
    processTicker env st t = { st with failed := st.failed ++ [t] } ∧
      (processTicker env st t).files = st.files ∧
      (processTicker env st t).success = st.success ∧
      runLoop env st (t :: rest) =
        runLoop env { st with failed := st.failed ++ [t] } rest := by
  have h1 : processTicker env st t = { st with failed := st.failed ++ [t] } := by
    simp [processTicker, h]
  exact ⟨h1, by rw [h1], by rw [h1], by rw [runLoop, h1]⟩

/-- Witness for C4: the first of two tickers fetches empty. -/
theorem empty_fetch_marks_failed_witness :
    processTicker (fun _ => TickerResult.data []) initialState "INFY.NS" =
        { initialState with failed := initialState.failed ++ ["INFY.NS"] } ∧
      (processTicker (fun _ => TickerResult.data []) initialState
          "INFY.NS").files = initialState.files ∧
      (processTicker (fun _ => TickerResult.data []) initialState
          "INFY.NS").success = initialState.success ∧
      runLoop (fun _ => TickerResult.data []) initialState
          ["INFY.NS", "TCS.NS"] =
        runLoop (fun _ => TickerResult.data [])
          { initialState with failed := initialState.failed ++ ["INFY.NS"] }
          ["TCS.NS"] :=
  empty_fetch_marks_failed (fun _ => TickerResult.data []) initialState
    "INFY.NS" ["TCS.NS"] rfl

/-- C5: an exception in the NSE delivery fetch is caught inside
`download_ticker_data` and treated exactly like an empty delivery result:
the output is the price rows with `na` markers (identical to the
empty-delivery output), and in `main`'s loop such a ticker is written and
counted as a success — the supplementary failure alone never puts it in
the failed list. -/
theorem nse_failure_not_fatal (price : List PriceRow) (msg : String)
    (hp : price ≠ []) :
    download_ticker_data price (Except.error msg) =
        download_ticker_data price (Except.ok []) ∧
      download_ticker_data price (Except.error msg) =
        price.map (fun r => ⟨r, .na, .na, .na⟩) ∧
      ∀ st t,
        processTicker
            (fun _ => .data (download_ticker_data price (Except.error msg)))
            st t =
          { st with
              success := st.success + 1,
              files := st.files ++
                [⟨outputPath t, selectedColumns,
                  price.map (fun r => ⟨r, .na, .na, .na⟩)⟩] } := by
  have hpe : ¬price.isEmpty = true := fun h => hp (List.isEmpty_iff.mp h)
  have h2 : download_ticker_data price (Except.error msg) =
      price.map (fun r => ⟨r, .na, .na, .na⟩) := by
    rw [show download_ticker_data price (Except.error msg) =
        if price.isEmpty then []
        else price.map (fun r => (⟨r, .na, .na, .na⟩ : MergedRecord))
      from rfl, if_neg hpe]
  refine ⟨rfl, h2, fun st t => ?_⟩
  rw [show processTicker
      (fun _ => .data (download_ticker_data price (Except.error msg))) st t =
      if (download_ticker_data price (Except.error msg)).isEmpty then
        { st with failed := st.failed ++ [t] }
      else
        { st with
            success := st.success + 1,
            files := st.files ++
              [⟨outputPath t, selectedColumns,
                download_ticker_data price (Except.error msg)⟩] }
    from rfl, h2]
  rw [if_neg (by simpa [List.isEmpty_iff] using hp)]

/-- Witness for C5: one price row, delivery fetch raises. -/
theorem nse_failure_not_fatal_witness :
    download_ticker_data [⟨1, 2, 3, 1, 2, 2, 7⟩] (Except.error "timeout") =
        [⟨⟨1, 2, 3, 1, 2, 2, 7⟩, .na, .na, .na⟩] ∧
      processTicker
          (fun _ => .data (download_ticker_data [⟨1, 2, 3, 1, 2, 2, 7⟩]
            (Except.error "timeout")))
          initialState "INFY.NS" =
        ⟨1, [],
          [⟨outputPath "INFY.NS", selectedColumns,
            [⟨⟨1, 2, 3, 1, 2, 2, 7⟩, .na, .na, .na⟩]⟩]⟩ := by
  refine ⟨(nse_failure_not_fatal [⟨1, 2, 3, 1, 2, 2, 7⟩] "timeout"
    (by decide)).2.1, ?_⟩
  rw [(nse_failure_not_fatal [⟨1, 2, 3, 1, 2, 2, 7⟩] "timeout"
    (by decide)).2.2 initialState "INFY.NS"]
  rfl

/-- C7 counterexample: on a primary-path failure the resolver returns the
embedded fallback list, which has 50 tickers — not 51 as claimed. -/
theorem fallback_list_not_51 :
    (fetch_nifty50_tickers (Except.error "network down")).1.length = 50 ∧
      ¬(fetch_nifty50_tickers (Except.error "network down")).1.length = 51 := by
  exact ⟨rfl, by decide⟩

/-- C7 (amended: the fallback list has 50 tickers, not 51): when the
primary source fails, the resolver returns the 50-ticker fallback list;
an orchestrator run over it in which every price fetch returns empty
writes no files, and its summary reports 0 successes and 50 failures,
listing all 50 fallback ticker identifiers. -/
theorem fallback_all_empty_run :
    (fetch_nifty50_tickers (Except.error "network down")).1.length = 50 ∧
      (main (Except.error "network down") (fun _ => .data [])).files = [] ∧
      (main (Except.error "network down") (fun _ => .data [])).success = 0 ∧
      (main (Except.error "network down") (fun _ => .data [])).failed =
        (fetch_nifty50_tickers (Except.error "network down")).1 ∧
      (main (Except.error "network down")
          (fun _ => .data [])).failed.length = 50 := by
  refine ⟨rfl, ?_, ?_, ?_, ?_⟩ <;> decide

/-- C8: every file a run writes has path
`nifty50_csv/<ticker with dots replaced by underscores>.csv` for some
ticker of the run, and its header is exactly Date, Open, High, Low,
Close, Adj Close, Volume, Deliverable Volume, Deliverable %, OI, in that
order — no extra provider columns; moreover a successful ticker writes
exactly that one file with its merged rows. -/
theorem csv_files_named_and_headed (env : String → TickerResult)
    (tickers : List String) :
    (∀ f ∈ (runLoop env initialState tickers).files,
        (∃ t ∈ tickers,
            f.path = OUTPUT_DIR ++ "/" ++ replaceDots t ++ ".csv") ∧
          f.header = ["Date", "Open", "High", "Low", "Close", "Adj Close",
            "Volume", "Deliverable Volume", "Deliverable %", "OI"]) ∧
      ∀ st t rows, env t = .data rows → rows ≠ [] →
        (processTicker env st t).files =
          st.files ++ [⟨outputPath t, selectedColumns, rows⟩] := by
  constructor
  · intro f hf
    rcases runLoop_files_spec env initialState tickers f hf with hmem | ⟨t, ht, hp, hh⟩
    · cases hmem
    · exact ⟨⟨t, ht, hp⟩, hh⟩
  · intro st t rows h hrows
    simp [processTicker, h, List.isEmpty_iff, hrows]

/-- Witness for C8: one ticker, one merged row, one written file; the
file's name and header satisfy the contract and the per-step write is
exactly that file. -/
theorem csv_files_named_and_headed_witness :
    ((∃ t ∈ ["INFY.NS"],
        (⟨outputPath "INFY.NS", selectedColumns,
          [⟨⟨1, 2, 3, 1, 2, 2, 7⟩, .na, .na, .na⟩]⟩ : CsvFile).path =
          OUTPUT_DIR ++ "/" ++ replaceDots t ++ ".csv") ∧
      (⟨outputPath "INFY.NS", selectedColumns,
          [⟨⟨1, 2, 3, 1, 2, 2, 7⟩, .na, .na, .na⟩]⟩ : CsvFile).header =
        ["Date", "Open", "High", "Low", "Close", "Adj Close", "Volume",
         "Deliverable Volume", "Deliverable %", "OI"]) ∧
      (processTicker
          (fun _ => TickerResult.data
            [⟨⟨1, 2, 3, 1, 2, 2, 7⟩, .na, .na, .na⟩])
          initialState "INFY.NS").files =
        initialState.files ++
          [⟨outputPath "INFY.NS", selectedColumns,
            [⟨⟨1, 2, 3, 1, 2, 2, 7⟩, .na, .na, .na⟩]⟩] :=
  ⟨(csv_files_named_and_headed
      (fun _ => TickerResult.data [⟨⟨1, 2, 3, 1, 2, 2, 7⟩, .na, .na, .na⟩])
      ["INFY.NS"]).1
      ⟨outputPath "INFY.NS", selectedColumns,
        [⟨⟨1, 2, 3, 1, 2, 2, 7⟩, .na, .na, .na⟩]⟩ (by decide),
    (csv_files_named_and_headed
      (fun _ => TickerResult.data [⟨⟨1, 2, 3, 1, 2, 2, 7⟩, .na, .na, .na⟩])
      ["INFY.NS"]).2
      initialState "INFY.NS" _ rfl (by decide)⟩

/-- C10: every loop iteration either increments the success counter
exactly once (failed list unchanged) or appends the ticker to the failed
list exactly once (counter unchanged) — never both, never neither — so
after any number of processed tickers, `success + failed.length` equals
the number processed, and a full run from the initial state ends with
`success + failed.length = tickers.length`. -/
theorem run_success_failed_invariant (env : String → TickerResult) :
    (∀ st t,
        ((processTicker env st t).success = st.success + 1 ∧
            (processTicker env st t).failed = st.failed) ∨
          ((processTicker env st t).success = st.success ∧
            (processTicker env st t).failed = st.failed ++ [t])) ∧
      (∀ st ts,
          (runLoop env st ts).success + (runLoop env st ts).failed.length =
            st.success + st.failed.length + ts.length) ∧
      ∀ ts,
        (runLoop env initialState ts).success +
            (runLoop env initialState ts).failed.length = ts.length := by
  refine ⟨processTicker_step env, runLoop_counts env, fun ts => ?_⟩
  have := runLoop_counts env initialState ts
  simpa [initialState] using this

end SMC
